import Mathlib

/-!
Shallow embedding of the SDESA discrete-event simulation core
(`core.py`, `model.py`, `engine.py` of the sdesa-python repository).

Simulated times (Python floats) are modelled as integers; the engine
only adds, maximises and compares times, so nothing depends on the
number domain.  Python's
process-wide random generator, consumed through each activity's
`duration_function`, is modelled as an explicit stream `rand : Nat -> Int`
together with a consumption index carried in the engine state.  Python
dictionaries are modelled as association lists in insertion order, and
exceptions are modelled in the `Except PyErr` monad: a dictionary access
that would raise `KeyError`, the clock's `ValueError`, and the `NameError`
raised by `process_end_service_event` because `engine.py` imports neither
`ResourceEntity` nor `FlowEntity` from `.core` although lines 236 and 248
call both constructors.  The error value carries no state, matching the
fact that an escaped exception aborts `run`.  Python's stable `list.sort` is modelled by `List.insertionSort`
(stable for a total preorder, hence extensionally equal to timsort).
-/

namespace Sdesa

/-- Generic helper: update the first element of a list satisfying `p`
(Python's `update_entity`, which mutates the first match and stops). -/
def updateFirst {α : Type} (p : α → Bool) (f : α → α) : List α → List α
  | [] => []
  | x :: xs => if p x then f x :: xs else x :: updateFirst p f xs

/-- Generic helper: update the value stored at key `k` of an association
list (Python dictionary assignment to an existing key). -/
def updateLookup {α : Type} (k : String) (f : α → α) :
    List (String × α) → List (String × α)
  | [] => []
  | (k', v) :: rest =>
      if k' == k then (k', f v) :: rest else (k', v) :: updateLookup k f rest

/-- Ordering by an integer-valued key, the comparison underlying every
`sort` call in the source (`Event.__lt__` by `time`, the `sort(key=...)`
calls by `arrival_time` and `ready_time`). -/
def keyLe {α : Type} (key : α → ℤ) : α → α → Prop :=
  fun a b => key a ≤ key b

instance {α : Type} (key : α → ℤ) : DecidableRel (keyLe key) :=
  fun a b => inferInstanceAs (Decidable (key a ≤ key b))

instance {α : Type} (key : α → ℤ) : IsTotal α (keyLe key) :=
  ⟨fun a b => le_total (key a) (key b)⟩

instance {α : Type} (key : α → ℤ) : IsTrans α (keyLe key) :=
  ⟨fun _ _ _ hab hbc => le_trans hab hbc⟩

/-- Flow entity (`core.FlowEntity`); the opaque `attributes` bag, which the
engine never reads, is omitted. -/
structure FlowEntity where
  id : String
  activity_id : String
  arrival_time : ℤ
  departure_time : ℤ
deriving Repr, DecidableEq

/-- Predicate `FlowEntity.is_processed`: the entity is processed when its
`departure_time` is strictly positive. -/
def FlowEntity.is_processed (e : FlowEntity) : Bool :=
  decide (e.departure_time > 0)

/-- Resource entity (`core.ResourceEntity`), `attributes` omitted. -/
structure ResourceEntity where
  id : String
  type : String
  ready_time : ℤ
  available : Bool
  disposable : Bool
deriving Repr, DecidableEq

namespace FlowEntityQueue

/-- Operation `FlowEntityQueue.get_next_unprocessed`: filter the entities
with `departure_time == 0`, stably sort them by `arrival_time`
(Python's `list.sort(key=...)`), and return the first, if any. -/
def get_next_unprocessed (entities : List FlowEntity) : Option FlowEntity :=
  ((entities.filter fun e => e.departure_time == 0).insertionSort
    (keyLe FlowEntity.arrival_time)).head?

/-- Operation `FlowEntityQueue.update_entity` specialised to the single
keyword argument the engine passes, `departure_time`. -/
def update_departure_time (entities : List FlowEntity) (entity_id : String)
    (t : ℤ) : List FlowEntity :=
  updateFirst (fun e => e.id == entity_id)
    (fun e => { e with departure_time := t }) entities

end FlowEntityQueue

namespace ResourceEntityQueue

/-- Operation `ResourceEntityQueue.get_resource`: filter the available
resources of the requested type, stably sort them by `ready_time`, and
return the first, if any.  The queue itself is not modified. -/
def get_resource (entities : List ResourceEntity) (ty : String) :
    Option ResourceEntity :=
  ((entities.filter fun r => r.type == ty && r.available).insertionSort
    (keyLe ResourceEntity.ready_time)).head?

/-- Operation `ResourceEntityQueue.update_entity` specialised to the
keyword argument `ready_time`. -/
def update_ready_time (entities : List ResourceEntity) (entity_id : String)
    (t : ℤ) : List ResourceEntity :=
  updateFirst (fun r => r.id == entity_id)
    (fun r => { r with ready_time := t }) entities

/-- Operation `ResourceEntityQueue.update_entity` specialised to the
keyword argument `available`. -/
def update_available (entities : List ResourceEntity) (entity_id : String)
    (b : Bool) : List ResourceEntity :=
  updateFirst (fun r => r.id == entity_id)
    (fun r => { r with available := b }) entities

end ResourceEntityQueue

/-- Event (`core.Event`); the source stores the kind as a string. -/
structure Event where
  time : ℤ
  type : String
  entity_id : String
  activity_id : String
deriving Repr, DecidableEq

/-- String constant `Event.BEGIN_SERVICE`. -/
def Event.BEGIN_SERVICE : String := "begin_service"

/-- String constant `Event.END_SERVICE`. -/
def Event.END_SERVICE : String := "end_service"

namespace EventCalendar

/-- Operation `EventCalendar.schedule_event`: append the event and re-sort
the whole list with `Event.__lt__`, which compares by `time` only;
Python's sort is stable, modelled by `insertionSort`. -/
def schedule_event (events : List Event) (ev : Event) : List Event :=
  (events ++ [ev]).insertionSort (keyLe Event.time)

/-- Operation `EventCalendar.get_next_event`: the head of the list. -/
def get_next_event (events : List Event) : Option Event :=
  events.head?

/-- Operation `EventCalendar.remove_event`: remove the first occurrence of
the event, if present. -/
def remove_event (events : List Event) (ev : Event) : List Event :=
  if ev ∈ events then events.erase ev else events

end EventCalendar

/-- Python exceptions that can escape the engine's handlers. -/
inductive PyErr where
  | keyError
  | valueError
  | nameError
deriving Repr, DecidableEq

/-- Operation `SimulationClock.advance`: advancing backwards raises
`ValueError`. -/
def SimulationClock.advance (current t : ℤ) : Except PyErr ℤ :=
  if t < current then .error .valueError else .ok t

/-- Activity (`model.Activity`).  The callable `duration_function` draws
from the process-wide random generator, which is modelled as the engine
state's stream, so no field is kept here for it. -/
structure Activity where
  id : String
  name : String
  required_resources : List String
  released_resources : List String
  generated_resources : List String
  successor_activities : List String
  priority : Int
deriving Repr, DecidableEq

/-- Model (`model.Model`); the `activities` dictionary is an association
list in insertion order (`add_activity` refuses duplicate ids). -/
structure Model where
  name : String
  activities : List (String × Activity)
  initial_flow_entities : List FlowEntity
  initial_resources : List ResourceEntity

/-- Operation `Model.get_activity`: dictionary `get`, `none` if absent. -/
def Model.get_activity (m : Model) (activity_id : String) : Option Activity :=
  m.activities.lookup activity_id

/-- Per-activity statistics row as created by `SimulationEngine.initEngine`. -/
structure ActivityStats where
  completion_count : ℕ
  waiting_times : List ℤ
  service_times : List ℤ
deriving Repr, DecidableEq

/-- Per-resource statistics row as created by `SimulationEngine.initEngine`. -/
structure ResourceStats where
  busy_periods : List (ℤ × ℤ)
  idle_periods : List (ℤ × ℤ)
deriving Repr, DecidableEq

/-- Runtime state owned by `SimulationEngine`: the four containers, the
event log, the statistics dictionaries, and the modelled random stream
(`rand` with consumption index `rand_idx`). -/
structure EngineState where
  flow_entity_queue : List FlowEntity
  resource_entity_queue : List ResourceEntity
  event_calendar : List Event
  clock : ℤ
  event_log : List Event
  activity_statistics : List (String × ActivityStats)
  resource_statistics : List (String × ResourceStats)
  total_simulation_time : ℤ
  rand : ℕ → ℤ
  rand_idx : ℕ

namespace SimulationEngine

/-- Call of an activity's `duration_function`: draw the next value of the
modelled process-wide random stream. -/
def draw (st : EngineState) : ℤ × EngineState :=
  (st.rand st.rand_idx, { st with rand_idx := st.rand_idx + 1 })

/-- Access `statistics['activity_statistics'][aid]` and append a waiting
time and a service time, as the two consecutive `append` calls of
`process_begin_service_event` do; a missing key raises `KeyError`. -/
def appendWaitingService (stats : List (String × ActivityStats))
    (aid : String) (w s : ℤ) : Except PyErr (List (String × ActivityStats)) :=
  match stats.lookup aid with
  | none => .error .keyError
  | some _ => .ok (updateLookup aid
      (fun a => { a with waiting_times := a.waiting_times ++ [w],
                         service_times := a.service_times ++ [s] }) stats)

/-- Access `statistics['activity_statistics'][aid]['completion_count']`
and increment it; a missing key raises `KeyError`. -/
def incCompletionCount (stats : List (String × ActivityStats))
    (aid : String) : Except PyErr (List (String × ActivityStats)) :=
  match stats.lookup aid with
  | none => .error .keyError
  | some _ => .ok (updateLookup aid
      (fun a => { a with completion_count := a.completion_count + 1 }) stats)

/-- Access `statistics['resource_statistics'][rid]['busy_periods']` and
append an interval; a missing key raises `KeyError`. -/
def appendBusyPeriod (stats : List (String × ResourceStats))
    (rid : String) (iv : ℤ × ℤ) : Except PyErr (List (String × ResourceStats)) :=
  match stats.lookup rid with
  | none => .error .keyError
  | some _ => .ok (updateLookup rid
      (fun s => { s with busy_periods := s.busy_periods ++ [iv] }) stats)

/-- Acquisition loop of `process_begin_service_event`: one
`get_resource` call per required type, failing as soon as one type has no
available resource.  The queue is never modified during the loop. -/
def acquireAll (rq : List ResourceEntity) : List String →
    Option (List ResourceEntity)
  | [] => some []
  | ty :: tys =>
    match ResourceEntityQueue.get_resource rq ty with
    | none => none
    | some r =>
      match acquireAll rq tys with
      | none => none
      | some rs => some (r :: rs)

/-- Python's `max(r.ready_time for r in required_resources)` (the list is
non-empty whenever this is reached). -/
def maxReady : List ResourceEntity → ℤ
  | [] => 0
  | r :: rs => rs.foldl (fun acc x => max acc x.ready_time) r.ready_time

/-- Body of the per-resource update loop of `process_begin_service_event`:
append the busy interval to the resource's statistics row (possible
`KeyError`), then update `ready_time` if the type is released, else mark
unavailable if disposable, else leave the resource untouched. -/
def applyResource (activity : Activity) (begin_time end_time : ℤ)
    (st : EngineState) (r : ResourceEntity) : Except PyErr EngineState :=
  match appendBusyPeriod st.resource_statistics r.id (begin_time, end_time) with
  | .error e => .error e
  | .ok rstats =>
    let st1 := { st with resource_statistics := rstats }
    if activity.released_resources.contains r.type then
      .ok { st1 with resource_entity_queue :=
        ResourceEntityQueue.update_ready_time st1.resource_entity_queue r.id end_time }
    else if r.disposable then
      .ok { st1 with resource_entity_queue :=
        ResourceEntityQueue.update_available st1.resource_entity_queue r.id false }
    else
      .ok st1

/-- Handler `SimulationEngine.process_begin_service_event`; the returned
boolean is the Python return value. -/
def process_begin_service_event (m : Model) (st : EngineState)
    (entity : FlowEntity) : Except PyErr (EngineState × Bool) :=
  match m.get_activity entity.activity_id with
  | none => .ok (st, false)
  | some activity =>
    if activity.required_resources.isEmpty then
      let begin_time := entity.arrival_time
      let (duration, st1) := draw st
      let end_time := begin_time + duration
      let st2 := { st1 with event_calendar :=
        (EventCalendar.schedule_event st1.event_calendar
          ⟨end_time, Event.END_SERVICE, entity.id, entity.activity_id⟩) }
      match appendWaitingService st2.activity_statistics activity.id 0 duration with
      | .error e => .error e
      | .ok astats => .ok ({ st2 with activity_statistics := astats }, true)
    else
      match acquireAll st.resource_entity_queue activity.required_resources with
      | none => .ok (st, false)
      | some resources =>
        let begin_time := max entity.arrival_time (maxReady resources)
        let (duration, st1) := draw st
        let end_time := begin_time + duration
        match resources.foldlM (applyResource activity begin_time end_time) st1 with
        | .error e => .error e
        | .ok st2 =>
          let st3 := { st2 with event_calendar :=
            (EventCalendar.schedule_event st2.event_calendar
              ⟨end_time, Event.END_SERVICE, entity.id, entity.activity_id⟩) }
          let waiting_time := begin_time - entity.arrival_time
          match appendWaitingService st3.activity_statistics activity.id
              waiting_time duration with
          | .error e => .error e
          | .ok astats => .ok ({ st3 with activity_statistics := astats }, true)

/-- Handler `SimulationEngine.process_end_service_event`.  After stamping
the entity's `departure_time` and incrementing the completion count, the
source enters its two synthesis loops; but `engine.py` imports neither
`ResourceEntity` (used at line 236) nor `FlowEntity` (used at line 248)
from `.core`, so the first iteration of whichever loop runs first raises
`NameError` before anything is added to either queue.  Only when both
`generated_resources` and `successor_activities` are empty do the loops
not execute and the handler return success. -/
def process_end_service_event (m : Model) (st : EngineState)
    (entity : FlowEntity) : Except PyErr (EngineState × Bool) :=
  match m.get_activity entity.activity_id with
  | none => .ok (st, false)
  | some activity =>
    let event_time := st.clock
    let st1 := { st with flow_entity_queue :=
      FlowEntityQueue.update_departure_time st.flow_entity_queue entity.id event_time }
    match incCompletionCount st1.activity_statistics activity.id with
    | .error e => .error e
    | .ok astats =>
      let st2 := { st1 with activity_statistics := astats }
      if activity.generated_resources.isEmpty then
        if activity.successor_activities.isEmpty then .ok (st2, true)
        else .error .nameError
      else .error .nameError

/-- Python method `initialize` (here `initEngine`) together with the engine
constructor: fresh containers filled from the model, statistics rows for
every activity and for every initial resource only. -/
def initEngine (m : Model) (rand : ℕ → ℤ) : EngineState where
  flow_entity_queue := m.initial_flow_entities
  resource_entity_queue := m.initial_resources
  event_calendar := []
  clock := 0
  event_log := []
  activity_statistics := m.activities.map fun p => (p.1, ⟨0, [], []⟩)
  resource_statistics := m.initial_resources.map fun r => (r.id, ⟨[], []⟩)
  total_simulation_time := 0
  rand := rand
  rand_idx := 0

/-- Drain phase of `SimulationEngine.run` (`while next_entity and
clock < duration`), with explicit fuel.  The boolean reports whether the
loop condition became false (`true`) or the fuel ran out with the loop
still running (`false`). -/
def drain_loop (m : Model) (duration : ℤ) :
    ℕ → EngineState → Except PyErr (EngineState × Bool)
  | 0, st => .ok (st, false)
  | fuel + 1, st =>
    match FlowEntityQueue.get_next_unprocessed st.flow_entity_queue with
    | none => .ok (st, true)
    | some e =>
      if st.clock < duration then
        match process_begin_service_event m st e with
        | .error er => .error er
        | .ok (st', _) => drain_loop m duration fuel st'
      else .ok (st, true)

/-- Event dispatch of the main loop: the entity matching both `entity_id`
and `activity_id` is looked up; an event naming no entity is a no-op. -/
def dispatch (m : Model) (st : EngineState) (ev : Event) :
    Except PyErr EngineState :=
  if ev.type == Event.BEGIN_SERVICE then
    match st.flow_entity_queue.find? fun e =>
        e.id == ev.entity_id && e.activity_id == ev.activity_id with
    | none => .ok st
    | some e =>
      match process_begin_service_event m st e with
      | .error er => .error er
      | .ok (st', _) => .ok st'
  else if ev.type == Event.END_SERVICE then
    match st.flow_entity_queue.find? fun e =>
        e.id == ev.entity_id && e.activity_id == ev.activity_id with
    | none => .ok st
    | some e =>
      match process_end_service_event m st e with
      | .error er => .error er
      | .ok (st', _) => .ok st'
  else .ok st

/-- Main loop of `SimulationEngine.run` (`while events and
clock < duration`), with explicit fuel for the outer loop and a fuel
budget for each inner drain phase. -/
def main_loop (m : Model) (duration : ℤ) (dfuel : ℕ) :
    ℕ → EngineState → Except PyErr (EngineState × Bool)
  | 0, st => .ok (st, false)
  | fuel + 1, st =>
    match EventCalendar.get_next_event st.event_calendar with
    | none => .ok (st, true)
    | some ev =>
      if st.clock < duration then
        let st1 := { st with event_calendar :=
          EventCalendar.remove_event st.event_calendar ev }
        match SimulationClock.advance st1.clock ev.time with
        | .error er => .error er
        | .ok c =>
          let st2 := { st1 with clock := c, event_log := st1.event_log ++ [ev] }
          match dispatch m st2 ev with
          | .error er => .error er
          | .ok st3 =>
            match drain_loop m duration dfuel st3 with
            | .error er => .error er
            | .ok (st4, finished) =>
              if finished then main_loop m duration dfuel fuel st4
              else .ok (st4, false)
      else .ok (st, true)

/-- Operation `SimulationEngine.run` with explicit fuel. `.ok (some st)`
means the Python `run` returned with final state `st`; `.ok none` means
the fuel was exhausted with the loops still running (so the Python run is
still executing after that many iterations); an `.error` value is an
escaped exception. -/
def run (m : Model) (rand : ℕ → ℤ) (duration : ℤ) (fuel : ℕ) :
    Except PyErr (Option EngineState) :=
  let st0 := initEngine m rand
  match drain_loop m duration fuel st0 with
  | .error er => .error er
  | .ok (st1, finished) =>
    if finished then
      match main_loop m duration fuel fuel st1 with
      | .error er => .error er
      | .ok (st2, fin2) =>
        if fin2 then .ok (some { st2 with total_simulation_time := st2.clock })
        else .ok none
    else .ok none

/-- Event log of a completed run, `none` when the fuel ran out with the
loops still running or an exception escaped. -/
def runEventLog (m : Model) (rand : ℕ → ℤ) (duration : ℤ) (fuel : ℕ) :
    Option (List Event) :=
  match run m rand duration fuel with
  | .ok (some st) => some st.event_log
  | _ => none

end SimulationEngine

/-! Concrete fixtures used to settle the claims on explicit inputs. -/

/-- One activity `A` with no required resources, no successors, and one
initial flow entity waiting at `A` (scenario S1 and the repository's own
example, reduced to one activity). -/
def oneActivityModel : Model where
  name := "m"
  activities := [("A", ⟨"A", "a", [], [], [], [], 0⟩)]
  initial_flow_entities := [⟨"e1", "A", 0, 0⟩]
  initial_resources := []

/-- Invariant maintained by every iteration of the drain phase on
`oneActivityModel`: the flow queue still holds exactly the initial
unprocessed entity, the clock has not moved, and the activity statistics
row for `A` exists. -/
def drainInv (st : EngineState) : Prop :=
  st.flow_entity_queue = [⟨"e1", "A", 0, 0⟩] ∧ st.clock = 0 ∧
    ∃ a, st.activity_statistics.lookup "A" = some a

/-- One activity `A` requiring a resource of type `r` that it neither
releases nor disposes, with one such resource (`ready_time = 3`). -/
def holdModel : Model where
  name := "m"
  activities := [("A", ⟨"A", "a", ["r"], [], [], [], 0⟩)]
  initial_flow_entities := [⟨"e1", "A", 0, 0⟩]
  initial_resources := [⟨"r1", "r", 3, true, false⟩]

/-- One activity `A` requiring a resource type `ghost` of which no
resource exists (scenario S6). -/
def starvedModel : Model where
  name := "m"
  activities := [("A", ⟨"A", "a", ["ghost"], [], [], [], 0⟩)]
  initial_flow_entities := [⟨"e1", "A", 0, 0⟩]
  initial_resources := []

/-- One activity `G` that generates a `token` resource and spawns a
successor entity at `S` (scenario S4's generator). -/
def genModel : Model where
  name := "m"
  activities := [("G", ⟨"G", "g", [], [], ["token"], ["S"], 0⟩),
                 ("S", ⟨"S", "s", ["token"], [], [], [], 0⟩)]
  initial_flow_entities := [⟨"e1", "G", 0, 0⟩]
  initial_resources := []

/-! Generic lemmas about the helper operations. -/

theorem lookup_updateLookup {α : Type} (k k' : String) (f : α → α) :
    ∀ l : List (String × α),
      (updateLookup k f l).lookup k' =
        if k' = k then (l.lookup k').map f else l.lookup k'
  | [] => by simp [updateLookup]
  | (k₀, v) :: rest => by
    rcases hb0 : (k₀ == k) with _ | _
    · have h0 : ¬ k₀ = k := by simpa using hb0
      rcases hb1 : (k' == k₀) with _ | _
      · simp [updateLookup, List.lookup, hb0, hb1,
          lookup_updateLookup k k' f rest]
      · have h1 : k' = k₀ := by simpa using hb1
        have h2 : ¬ k' = k := fun h => h0 (h1 ▸ h)
        simp [updateLookup, List.lookup, hb0, hb1, h2]
    · have h0 : k₀ = k := by simpa using hb0
      rcases hb1 : (k' == k₀) with _ | _
      · have h1 : ¬ k' = k₀ := by simpa using hb1
        have h2 : ¬ k' = k := fun h => h1 (h0 ▸ h)
        simp [updateLookup, List.lookup, hb0, hb1, h2,
          lookup_updateLookup k k' f rest]
      · have h1 : k' = k₀ := by simpa using hb1
        have h2 : k' = k := h0 ▸ h1
        have hb2 : (k == k₀) = true := by simp [h0]
        simp [updateLookup, List.lookup, hb0, hb1, h2, hb2]

theorem lookup_updateLookup_self {α : Type} (k : String) (f : α → α)
    (l : List (String × α)) :
    (updateLookup k f l).lookup k = (l.lookup k).map f := by
  simp [lookup_updateLookup]

theorem lookup_updateLookup_none_iff {α : Type} (k k' : String) (f : α → α)
    (l : List (String × α)) :
    (updateLookup k f l).lookup k' = none ↔ l.lookup k' = none := by
  rw [lookup_updateLookup]
  by_cases h : k' = k <;> simp [h, Option.map_eq_none']

theorem find?_updateFirst_self {α : Type} (pid : α → String) (i : String)
    (f : α → α) (hf : ∀ a, pid (f a) = pid a) :
    ∀ l : List α,
      (updateFirst (fun a => pid a == i) f l).find? (fun a => pid a == i) =
        (l.find? fun a => pid a == i).map f
  | [] => by simp [updateFirst]
  | x :: xs => by
    rcases hb : (pid x == i) with _ | _
    · simp [updateFirst, List.find?, hb, hf,
        find?_updateFirst_self pid i f hf xs]
    · have hfx : (pid (f x) == i) = true := by
        rw [hf]; exact hb
      simp [updateFirst, List.find?, hb, hfx]

theorem find?_updateFirst_of_ne {α : Type} (pid : α → String) (i j : String)
    (f : α → α) (hf : ∀ a, pid (f a) = pid a) (hne : i ≠ j) :
    ∀ l : List α,
      (updateFirst (fun a => pid a == j) f l).find? (fun a => pid a == i) =
        l.find? fun a => pid a == i
  | [] => by simp [updateFirst]
  | x :: xs => by
    rcases hb : (pid x == j) with _ | _
    · rcases hb2 : (pid x == i) with _ | _ <;>
        simp [updateFirst, List.find?, hb, hb2,
          find?_updateFirst_of_ne pid i j f hf hne xs]
    · have hj : pid x = j := by simpa using hb
      have hfx : (pid (f x) == i) = false := by
        rw [hf, hj]
        exact beq_eq_false_iff_ne.mpr (fun h => hne h.symm)
      have hxi : (pid x == i) = false := by
        rw [hj]; exact beq_eq_false_iff_ne.mpr (fun h => hne h.symm)
      simp [updateFirst, List.find?, hb, hfx, hxi]

theorem find?_of_mem_of_nodup_ids {α : Type} (pid : α → String) :
    ∀ l : List α, (l.map pid).Nodup → ∀ a ∈ l,
      l.find? (fun x => pid x == pid a) = some a
  | [], _, a, ha => by cases ha
  | x :: xs, hnd, a, ha => by
    rw [List.map_cons] at hnd
    have hx : pid x ∉ xs.map pid := (List.nodup_cons.mp hnd).1
    have hnd' : (xs.map pid).Nodup := (List.nodup_cons.mp hnd).2
    rcases List.mem_cons.mp ha with rfl | hmem
    · simp [List.find?]
    · have hne : (pid x == pid a) = false :=
        beq_eq_false_iff_ne.mpr
          (fun h => hx (h ▸ List.mem_map_of_mem pid hmem))
      simp [List.find?, hne, find?_of_mem_of_nodup_ids pid xs hnd' a hmem]

/-! Stability of the modelled Python sort: sorting never reorders elements
whose keys are equal, so the relative order of key-ties is insertion
order. -/

theorem filter_key_insertionSort {α : Type} (key : α → ℤ) (l : List α) (t : ℤ) :
    ((l.insertionSort (keyLe key)).filter fun a => key a == t) =
      l.filter fun a => key a == t := by
  have hsub : List.Sublist (l.filter fun a => key a == t)
      (l.insertionSort (keyLe key)) := by
    apply List.sublist_insertionSort
    · apply List.pairwise_of_forall_mem_list
      intro a ha b hb
      have ha' := List.of_mem_filter ha
      have hb' := List.of_mem_filter hb
      have ha'' : key a = t := by simpa using ha'
      have hb'' : key b = t := by simpa using hb'
      simp [keyLe, ha'', hb'']
    · exact List.filter_sublist l
  have h1 : List.Sublist (l.filter fun a => key a == t)
      ((l.insertionSort (keyLe key)).filter fun a => key a == t) := by
    have := hsub.filter (fun a => key a == t)
    simpa [List.filter_filter] using this
  have h2 : ((l.insertionSort (keyLe key)).filter fun a => key a == t).length =
      (l.filter fun a => key a == t).length :=
    ((List.perm_insertionSort (keyLe key) l).filter _).length_eq
  exact (h1.eq_of_length h2.symm).symm

theorem head?_insertionSort_none {α : Type} (key : α → ℤ) (l : List α) :
    (l.insertionSort (keyLe key)).head? = none ↔ l = [] := by
  rw [List.head?_eq_none_iff]
  constructor
  · intro h
    have := (List.perm_insertionSort (keyLe key) l).symm.length_eq
    simpa [h, List.length_eq_zero] using this
  · rintro rfl; rfl

theorem head?_insertionSort_some {α : Type} (key : α → ℤ) (l : List α)
    (m : α) (h : (l.insertionSort (keyLe key)).head? = some m) :
    m ∈ l ∧ (∀ x ∈ l, key m ≤ key x) ∧
      (l.filter fun a => key a == key m).head? = some m := by
  rcases hs : l.insertionSort (keyLe key) with _ | ⟨m', tail⟩
  · rw [hs] at h; cases h
  · rw [hs] at h
    have hm : m' = m := by simpa using h
    subst hm
    have hmem : m' ∈ l := by
      have : m' ∈ l.insertionSort (keyLe key) := by simp [hs]
      simpa using this
    refine ⟨hmem, ?_, ?_⟩
    · intro x hx
      have hxs : x ∈ l.insertionSort (keyLe key) := by simpa using hx
      rw [hs] at hxs
      rcases List.mem_cons.mp hxs with rfl | hxt
      · exact le_refl _
      · have hsorted := List.sorted_insertionSort (keyLe key) l
        rw [hs] at hsorted
        exact List.rel_of_sorted_cons hsorted x hxt
    · have := filter_key_insertionSort key l (key m')
      rw [hs] at this
      simp only [List.filter_cons, beq_self_eq_true, if_pos] at this
      rw [← this]
      simp

/-! Lemmas about resource acquisition and the per-resource update loop of
`process_begin_service_event`. -/

theorem get_resource_spec (q : List ResourceEntity) (ty : String)
    (r : ResourceEntity) (h : ResourceEntityQueue.get_resource q ty = some r) :
    r ∈ q ∧ r.type = ty ∧ r.available = true := by
  unfold ResourceEntityQueue.get_resource at h
  obtain ⟨hmem, -, -⟩ := head?_insertionSort_some _ _ _ h
  have h1 := List.mem_filter.mp hmem
  have h2 := h1.2
  rw [Bool.and_eq_true] at h2
  exact ⟨h1.1, by simpa using h2.1, h2.2⟩

theorem acquireAll_none_of_missing (q : List ResourceEntity) :
    ∀ tys : List String,
      (∃ ty ∈ tys, ResourceEntityQueue.get_resource q ty = none) →
      SimulationEngine.acquireAll q tys = none
  | [], h => by simp at h
  | ty₀ :: tys, h => by
    rcases h with ⟨ty, hty, hnone⟩
    rcases List.mem_cons.mp hty with rfl | hmem
    · simp [SimulationEngine.acquireAll, hnone]
    · unfold SimulationEngine.acquireAll
      rcases hg : ResourceEntityQueue.get_resource q ty₀ with _ | r
      · rfl
      · rw [acquireAll_none_of_missing q tys ⟨ty, hmem, hnone⟩]

theorem acquireAll_forall₂ (q : List ResourceEntity) :
    ∀ (tys : List String) (rs : List ResourceEntity),
      SimulationEngine.acquireAll q tys = some rs →
      List.Forall₂ (fun ty r => ResourceEntityQueue.get_resource q ty = some r)
        tys rs
  | [], rs, h => by
    simp [SimulationEngine.acquireAll] at h
    simp [← h]
  | ty₀ :: tys, rs, h => by
    unfold SimulationEngine.acquireAll at h
    rcases hg : ResourceEntityQueue.get_resource q ty₀ with _ | r
    · rw [hg] at h; cases h
    · rw [hg] at h
      rcases ha : SimulationEngine.acquireAll q tys with _ | rs'
      · rw [ha] at h; cases h
      · rw [ha] at h
        cases h
        exact List.Forall₂.cons hg (acquireAll_forall₂ q tys rs' ha)

theorem forall₂_exists_left {α β : Type} {R : α → β → Prop} :
    ∀ {l₁ : List α} {l₂ : List β}, List.Forall₂ R l₁ l₂ →
      ∀ b ∈ l₂, ∃ a ∈ l₁, R a b := by
  intro l₁ l₂ h
  induction h with
  | nil => intro b hb; cases hb
  | cons hR _ ih =>
    intro b hb
    rcases List.mem_cons.mp hb with rfl | hm
    · exact ⟨_, List.mem_cons_self _ _, hR⟩
    · obtain ⟨a, ha, hab⟩ := ih b hm
      exact ⟨a, List.mem_cons_of_mem _ ha, hab⟩

theorem acquireAll_mem (q : List ResourceEntity) (tys : List String)
    (rs : List ResourceEntity)
    (h : SimulationEngine.acquireAll q tys = some rs) :
    ∀ r ∈ rs, ∃ ty ∈ tys, ResourceEntityQueue.get_resource q ty = some r :=
  forall₂_exists_left (acquireAll_forall₂ q tys rs h)

theorem acquireAll_pairwise_ne_id (q : List ResourceEntity)
    (hq : (q.map ResourceEntity.id).Nodup)
    (tys : List String) (rs : List ResourceEntity) (hnd : tys.Nodup)
    (h : SimulationEngine.acquireAll q tys = some rs) :
    rs.Pairwise fun a b => a.id ≠ b.id := by
  have hf := acquireAll_forall₂ q tys rs h
  clear h
  induction hf with
  | nil => exact List.Pairwise.nil
  | @cons ty r tys' rs' hg hf' ih =>
    have hnd' := List.nodup_cons.mp hnd
    refine List.Pairwise.cons ?_ (ih hnd'.2)
    intro b hb hid
    obtain ⟨ty', hty', hg'⟩ := forall₂_exists_left hf' b hb
    have hr := get_resource_spec q ty r hg
    have hb' := get_resource_spec q ty' b hg'
    have : r = b := List.inj_on_of_nodup_map hq hr.1 hb'.1 hid
    subst this
    have hty : ty = ty' := hr.2.1.symm.trans hb'.2.1
    exact hnd'.1 (hty ▸ hty')

theorem applyResource_ok (A : Activity) (bt et : ℤ) (st : EngineState)
    (r : ResourceEntity) (s : ResourceStats)
    (h : st.resource_statistics.lookup r.id = some s) :
    SimulationEngine.applyResource A bt et st r = .ok
      { st with
        resource_statistics := updateLookup r.id
          (fun x => { x with busy_periods := x.busy_periods ++ [(bt, et)] })
          st.resource_statistics,
        resource_entity_queue :=
          if A.released_resources.contains r.type then
            ResourceEntityQueue.update_ready_time st.resource_entity_queue r.id et
          else if r.disposable then
            ResourceEntityQueue.update_available st.resource_entity_queue r.id false
          else st.resource_entity_queue } := by
  unfold SimulationEngine.applyResource SimulationEngine.appendBusyPeriod
  rw [h]
  rcases hc : A.released_resources.contains r.type with _ | _
  · rcases hd : r.disposable with _ | _ <;> simp [hc, hd]
  · simp [hc]

theorem applyResource_error (A : Activity) (bt et : ℤ) (st : EngineState)
    (r : ResourceEntity) (h : st.resource_statistics.lookup r.id = none) :
    SimulationEngine.applyResource A bt et st r = .error .keyError := by
  unfold SimulationEngine.applyResource SimulationEngine.appendBusyPeriod
  rw [h]

theorem foldl_applyResource_error (A : Activity) (bt et : ℤ) :
    ∀ (rs : List ResourceEntity) (st : EngineState),
      (∃ r ∈ rs, st.resource_statistics.lookup r.id = none) →
      rs.foldlM (SimulationEngine.applyResource A bt et) st = .error .keyError
  | [], st, h => by simp at h
  | r₀ :: rs, st, h => by
    rcases hl : st.resource_statistics.lookup r₀.id with _ | s
    · rw [List.foldlM_cons, applyResource_error A bt et st r₀ hl]
      rfl
    · rcases h with ⟨r, hr, hnone⟩
      have hr' : r ∈ rs := by
        rcases List.mem_cons.mp hr with rfl | hm
        · rw [hl] at hnone; cases hnone
        · exact hm
      rw [List.foldlM_cons, applyResource_ok A bt et st r₀ s hl]
      show Except.bind _ _ = _
      rw [Except.bind]
      apply foldl_applyResource_error
      exact ⟨r, hr', (lookup_updateLookup_none_iff _ _ _ _).mpr hnone⟩

theorem branchQueue_find?_self (A : Activity) (et : ℤ)
    (q : List ResourceEntity) (r : ResourceEntity) :
    ((if A.released_resources.contains r.type then
        ResourceEntityQueue.update_ready_time q r.id et
      else if r.disposable then
        ResourceEntityQueue.update_available q r.id false
      else q).find? fun x => x.id == r.id) =
      (q.find? fun x => x.id == r.id).map fun x =>
        if A.released_resources.contains r.type then { x with ready_time := et }
        else if r.disposable then { x with available := false }
        else x := by
  rcases hc : A.released_resources.contains r.type with _ | _
  · rcases hd : r.disposable with _ | _
    · simp only [hc, hd, Bool.false_eq_true, if_false]
      cases q.find? fun x => x.id == r.id <;> rfl
    · simp only [hc, hd, Bool.false_eq_true, if_false, if_true]
      unfold ResourceEntityQueue.update_available
      exact find?_updateFirst_self ResourceEntity.id r.id
        (fun x => { x with available := false }) (fun a => rfl) q
  · simp only [hc, if_true]
    unfold ResourceEntityQueue.update_ready_time
    exact find?_updateFirst_self ResourceEntity.id r.id
      (fun x => { x with ready_time := et }) (fun a => rfl) q

theorem branchQueue_find?_ne (A : Activity) (et : ℤ)
    (q : List ResourceEntity) (r : ResourceEntity) (i : String)
    (hne : i ≠ r.id) :
    ((if A.released_resources.contains r.type then
        ResourceEntityQueue.update_ready_time q r.id et
      else if r.disposable then
        ResourceEntityQueue.update_available q r.id false
      else q).find? fun x => x.id == i) =
      q.find? fun x => x.id == i := by
  rcases hc : A.released_resources.contains r.type with _ | _
  · rcases hd : r.disposable with _ | _
    · simp [hc, hd]
    · simp only [hc, hd, Bool.false_eq_true, if_false, if_true]
      unfold ResourceEntityQueue.update_available
      exact find?_updateFirst_of_ne ResourceEntity.id i r.id
        (fun x => { x with available := false }) (fun a => rfl) hne q
  · simp only [hc, if_true]
    unfold ResourceEntityQueue.update_ready_time
    exact find?_updateFirst_of_ne ResourceEntity.id i r.id
      (fun x => { x with ready_time := et }) (fun a => rfl) hne q

theorem foldl_applyResource_ok (A : Activity) (bt et : ℤ) :
    ∀ (rs : List ResourceEntity) (st : EngineState),
      (∀ r ∈ rs, (st.resource_statistics.lookup r.id).isSome = true) →
      rs.Pairwise (fun a b => a.id ≠ b.id) →
      ∃ st2, rs.foldlM (SimulationEngine.applyResource A bt et) st = .ok st2 ∧
        st2.flow_entity_queue = st.flow_entity_queue ∧
        st2.clock = st.clock ∧
        st2.event_calendar = st.event_calendar ∧
        st2.activity_statistics = st.activity_statistics ∧
        st2.rand = st.rand ∧
        st2.rand_idx = st.rand_idx ∧
        st2.event_log = st.event_log ∧
        (∀ i, st2.resource_statistics.lookup i = none ↔
          st.resource_statistics.lookup i = none) ∧
        (∀ i, (∀ r ∈ rs, r.id ≠ i) →
          st2.resource_entity_queue.find? (fun x => x.id == i) =
            st.resource_entity_queue.find? fun x => x.id == i) ∧
        (∀ r ∈ rs,
          st2.resource_entity_queue.find? (fun x => x.id == r.id) =
            (st.resource_entity_queue.find? (fun x => x.id == r.id)).map fun x =>
              if A.released_resources.contains r.type then { x with ready_time := et }
              else if r.disposable then { x with available := false }
              else x)
  | [], st, _, _ => by
    refine ⟨st, rfl, rfl, rfl, rfl, rfl, rfl, rfl, rfl, fun i => Iff.rfl,
      fun i _ => rfl, fun r hr => absurd hr (List.not_mem_nil r)⟩
  | r₀ :: rest, st, hsome, hpw => by
    obtain ⟨s, hl⟩ := Option.isSome_iff_exists.mp
      (hsome r₀ (List.mem_cons_self _ _))
    have hpw' := List.pairwise_cons.mp hpw
    set st1 : EngineState :=
      { st with
        resource_statistics := updateLookup r₀.id
          (fun x => { x with busy_periods := x.busy_periods ++ [(bt, et)] })
          st.resource_statistics,
        resource_entity_queue :=
          if A.released_resources.contains r₀.type then
            ResourceEntityQueue.update_ready_time st.resource_entity_queue r₀.id et
          else if r₀.disposable then
            ResourceEntityQueue.update_available st.resource_entity_queue r₀.id false
          else st.resource_entity_queue } with hst1
    have hnone1 : ∀ i, st1.resource_statistics.lookup i = none ↔
        st.resource_statistics.lookup i = none := by
      intro i
      simp only [hst1]
      exact lookup_updateLookup_none_iff _ _ _ _
    have hsome1 : ∀ r ∈ rest, (st1.resource_statistics.lookup r.id).isSome = true := by
      intro r hr
      have h0 := hsome r (List.mem_cons_of_mem _ hr)
      rw [Option.isSome_iff_ne_none] at h0 ⊢
      intro hcon
      exact h0 ((hnone1 r.id).mp hcon)
    obtain ⟨st2, hfold, hfq, hck, hcal, hast, hrand, hidx, hlog, hnone2,
        hne2, hmap2⟩ := foldl_applyResource_ok A bt et rest st1 hsome1 hpw'.2
    refine ⟨st2, ?_, ?_, ?_, ?_, ?_, ?_, ?_, ?_, ?_, ?_, ?_⟩
    · rw [List.foldlM_cons, applyResource_ok A bt et st r₀ s hl]
      show Except.bind _ _ = _
      rw [Except.bind]
      exact hfold
    · rw [hfq]
    · rw [hck]
    · rw [hcal]
    · rw [hast]
    · rw [hrand]
    · rw [hidx]
    · rw [hlog]
    · intro i
      exact (hnone2 i).trans (hnone1 i)
    · intro i hi
      rw [hne2 i (fun r hr => hi r (List.mem_cons_of_mem _ hr))]
      exact branchQueue_find?_ne A et st.resource_entity_queue r₀ i
        (fun h => hi r₀ (List.mem_cons_self _ _) h.symm)
    · intro r hr
      rcases List.mem_cons.mp hr with rfl | hmem
      · rw [hne2 r.id (fun b hb => (hpw'.1 b hb).symm)]
        exact branchQueue_find?_self A et st.resource_entity_queue r
      · rw [hmap2 r hmem]
        rw [branchQueue_find?_ne A et st.resource_entity_queue r₀ r.id
          (hpw'.1 r hmem).symm]

/-! Characterisation of the `begin_service` handler. -/

theorem applyResource_ok_preserves (A : Activity) (bt et : ℤ)
    (st : EngineState) (r : ResourceEntity) (st1 : EngineState)
    (h : SimulationEngine.applyResource A bt et st r = .ok st1) :
    st1.flow_entity_queue = st.flow_entity_queue ∧ st1.clock = st.clock := by
  rcases hl : st.resource_statistics.lookup r.id with _ | s
  · rw [applyResource_error A bt et st r hl] at h
    cases h
  · rw [applyResource_ok A bt et st r s hl] at h
    cases h
    exact ⟨rfl, rfl⟩

theorem foldl_applyResource_preserves (A : Activity) (bt et : ℤ) :
    ∀ (rs : List ResourceEntity) (st st2 : EngineState),
      rs.foldlM (SimulationEngine.applyResource A bt et) st = .ok st2 →
      st2.flow_entity_queue = st.flow_entity_queue ∧ st2.clock = st.clock
  | [], st, st2, h => by
    cases h
    exact ⟨rfl, rfl⟩
  | r₀ :: rs, st, st2, h => by
    rw [List.foldlM_cons] at h
    cases happ : SimulationEngine.applyResource A bt et st r₀ with
    | error er => rw [happ] at h; cases h
    | ok st1 =>
      rw [happ] at h
      have h' : rs.foldlM (SimulationEngine.applyResource A bt et) st1 = .ok st2 := h
      have h1 := applyResource_ok_preserves A bt et st r₀ st1 happ
      have h2 := foldl_applyResource_preserves A bt et rs st1 st2 h'
      exact ⟨h2.1.trans h1.1, h2.2.trans h1.2⟩

theorem begin_service_fail (m : Model) (st : EngineState) (e : FlowEntity)
    (A : Activity) (hA : m.get_activity e.activity_id = some A)
    (hreq : A.required_resources ≠ [])
    (hacq : SimulationEngine.acquireAll st.resource_entity_queue
      A.required_resources = none) :
    SimulationEngine.process_begin_service_event m st e = .ok (st, false) := by
  have hbool : A.required_resources.isEmpty = false := by
    simpa [List.isEmpty_iff] using hreq
  simp only [SimulationEngine.process_begin_service_event, hA, hbool,
    Bool.false_eq_true, if_false, hacq]

theorem begin_service_nores (m : Model) (st : EngineState) (e : FlowEntity)
    (A : Activity) (ast : ActivityStats)
    (hA : m.get_activity e.activity_id = some A)
    (hreq : A.required_resources = [])
    (hast : st.activity_statistics.lookup A.id = some ast) :
    SimulationEngine.process_begin_service_event m st e = .ok
      ({ st with
          rand_idx := st.rand_idx + 1,
          event_calendar := EventCalendar.schedule_event st.event_calendar
            ⟨e.arrival_time + st.rand st.rand_idx, Event.END_SERVICE,
              e.id, e.activity_id⟩,
          activity_statistics := updateLookup A.id
            (fun a => { a with
                waiting_times := a.waiting_times ++ [0],
                service_times := a.service_times ++ [st.rand st.rand_idx] })
            st.activity_statistics }, true) := by
  have hbool : A.required_resources.isEmpty = true := by
    simp [hreq]
  simp only [SimulationEngine.process_begin_service_event, hA, hbool, if_true,
    SimulationEngine.draw, SimulationEngine.appendWaitingService, hast]

theorem begin_service_success (m : Model) (st : EngineState) (e : FlowEntity)
    (A : Activity) (rs : List ResourceEntity) (ast : ActivityStats)
    (hA : m.get_activity e.activity_id = some A)
    (hreq : A.required_resources ≠ [])
    (hacq : SimulationEngine.acquireAll st.resource_entity_queue
      A.required_resources = some rs)
    (hsome : ∀ r ∈ rs, (st.resource_statistics.lookup r.id).isSome = true)
    (hpw : rs.Pairwise fun a b => a.id ≠ b.id)
    (hast : st.activity_statistics.lookup A.id = some ast) :
    ∃ st', SimulationEngine.process_begin_service_event m st e = .ok (st', true) ∧
      st'.flow_entity_queue = st.flow_entity_queue ∧
      st'.clock = st.clock ∧
      st'.event_calendar = EventCalendar.schedule_event st.event_calendar
        ⟨max e.arrival_time (SimulationEngine.maxReady rs) + st.rand st.rand_idx,
          Event.END_SERVICE, e.id, e.activity_id⟩ ∧
      st'.activity_statistics.lookup A.id = some
        { ast with
          waiting_times := ast.waiting_times ++
            [max e.arrival_time (SimulationEngine.maxReady rs) - e.arrival_time],
          service_times := ast.service_times ++ [st.rand st.rand_idx] } ∧
      (∀ i, (∀ r ∈ rs, r.id ≠ i) →
        st'.resource_entity_queue.find? (fun x => x.id == i) =
          st.resource_entity_queue.find? fun x => x.id == i) ∧
      (∀ r ∈ rs,
        st'.resource_entity_queue.find? (fun x => x.id == r.id) =
          (st.resource_entity_queue.find? (fun x => x.id == r.id)).map fun x =>
            if A.released_resources.contains r.type then
              { x with ready_time :=
                (max e.arrival_time (SimulationEngine.maxReady rs) +
                  st.rand st.rand_idx) }
            else if r.disposable then { x with available := false }
            else x) := by
  have hbool : A.required_resources.isEmpty = false := by
    simpa [List.isEmpty_iff] using hreq
  set bt : ℤ := max e.arrival_time (SimulationEngine.maxReady rs) with hbt
  set dur : ℤ := st.rand st.rand_idx with hdur
  set st1 : EngineState := { st with rand_idx := st.rand_idx + 1 } with hst1
  have hsome1 : ∀ r ∈ rs, (st1.resource_statistics.lookup r.id).isSome = true :=
    hsome
  obtain ⟨st2, hfold, hfq, hck, hcal, hasts, hrand, hidx, hlog, hnone2,
      hne2, hmap2⟩ := foldl_applyResource_ok A bt (bt + dur) rs st1 hsome1 hpw
  have hast2 : st2.activity_statistics.lookup A.id = some ast := by
    rw [hasts]; exact hast
  refine ⟨{ st2 with
      event_calendar := (EventCalendar.schedule_event st2.event_calendar
        ⟨bt + dur, Event.END_SERVICE, e.id, e.activity_id⟩),
      activity_statistics := (updateLookup A.id
        (fun a => { a with
            waiting_times := a.waiting_times ++ [bt - e.arrival_time],
            service_times := a.service_times ++ [dur] })
        st2.activity_statistics) }, ?_, ?_, ?_, ?_, ?_, ?_, ?_⟩
  · simp only [SimulationEngine.process_begin_service_event, hA, hbool,
      Bool.false_eq_true, if_false, hacq, SimulationEngine.draw]
    rw [show rs.foldlM (SimulationEngine.applyResource A bt (bt + dur)) st1 =
        .ok st2 from hfold]
    simp only [SimulationEngine.appendWaitingService, hast2]
  · exact hfq
  · exact hck
  · show EventCalendar.schedule_event st2.event_calendar _ =
      EventCalendar.schedule_event st.event_calendar _
    rw [hcal]
  · show (updateLookup A.id _ st2.activity_statistics).lookup A.id = _
    rw [lookup_updateLookup_self, hast2]
    rfl
  · intro i hi
    exact hne2 i hi
  · intro r hr
    exact hmap2 r hr

/-! Characterisation of the `end_service` handler. -/

theorem end_service_nameerror (m : Model) (st : EngineState) (e : FlowEntity)
    (A : Activity) (ast : ActivityStats)
    (hA : m.get_activity e.activity_id = some A)
    (hast : st.activity_statistics.lookup A.id = some ast)
    (hne : A.generated_resources ≠ [] ∨ A.successor_activities ≠ []) :
    SimulationEngine.process_end_service_event m st e = .error .nameError := by
  simp only [SimulationEngine.process_end_service_event, hA,
    SimulationEngine.incCompletionCount, hast]
  rcases hg : A.generated_resources.isEmpty with _ | _
  · simp [hg]
  · have hgen : A.generated_resources = [] := by
      simpa [List.isEmpty_iff] using hg
    have hs : A.successor_activities ≠ [] := by
      rcases hne with h | h
      · exact absurd hgen h
      · exact h
    have hb : A.successor_activities.isEmpty = false := by
      simpa [List.isEmpty_iff] using hs
    simp [hg, hb]

theorem end_service_spec (m : Model) (st : EngineState) (e : FlowEntity)
    (A : Activity) (ast : ActivityStats)
    (hA : m.get_activity e.activity_id = some A)
    (hast : st.activity_statistics.lookup A.id = some ast)
    (hgen : A.generated_resources = [])
    (hsucc : A.successor_activities = []) :
    SimulationEngine.process_end_service_event m st e = .ok
      ({ st with
          flow_entity_queue := FlowEntityQueue.update_departure_time
            st.flow_entity_queue e.id st.clock,
          activity_statistics := (updateLookup A.id
            (fun a => { a with completion_count := a.completion_count + 1 })
            st.activity_statistics) }, true) := by
  simp only [SimulationEngine.process_end_service_event, hA,
    SimulationEngine.incCompletionCount, hast, hgen, hsucc,
    List.isEmpty_nil, if_true]

/-! Termination analysis of `run` on `oneActivityModel`. -/

theorem drainInv_step (st : EngineState) (h : drainInv st) :
    ∃ st', SimulationEngine.process_begin_service_event oneActivityModel st
        ⟨"e1", "A", 0, 0⟩ = .ok (st', true) ∧ drainInv st' := by
  obtain ⟨hflow, hclock, a, hast⟩ := h
  rw [begin_service_nores oneActivityModel st ⟨"e1", "A", 0, 0⟩
    ⟨"A", "a", [], [], [], [], 0⟩ a rfl rfl hast]
  refine ⟨_, rfl, hflow, hclock, ?_⟩
  refine ⟨{ a with
      waiting_times := a.waiting_times ++ [0],
      service_times := a.service_times ++ [st.rand st.rand_idx] }, ?_⟩
  show (updateLookup "A" _ st.activity_statistics).lookup "A" = _
  rw [lookup_updateLookup_self, hast]
  rfl

theorem drainInv_get_next (st : EngineState) (h : drainInv st) :
    FlowEntityQueue.get_next_unprocessed st.flow_entity_queue =
      some ⟨"e1", "A", 0, 0⟩ := by
  rw [h.1]
  rfl

theorem drain_loop_diverges (d : ℤ) (hd : 0 < d) :
    ∀ (fuel : ℕ) (st : EngineState), drainInv st →
      ∃ st', SimulationEngine.drain_loop oneActivityModel d fuel st =
        .ok (st', false) ∧ drainInv st'
  | 0, st, h => ⟨st, rfl, h⟩
  | fuel + 1, st, h => by
    obtain ⟨st', hstep, h'⟩ := drainInv_step st h
    have hck : st.clock < d := by rw [h.2.1]; exact hd
    obtain ⟨st'', hrec, h''⟩ := drain_loop_diverges d hd fuel st' h'
    refine ⟨st'', ?_, h''⟩
    unfold SimulationEngine.drain_loop
    rw [drainInv_get_next st h]
    show (if st.clock < d then
        match SimulationEngine.process_begin_service_event oneActivityModel st
            ⟨"e1", "A", 0, 0⟩ with
        | Except.error er => Except.error er
        | Except.ok (st', _) =>
            SimulationEngine.drain_loop oneActivityModel d fuel st'
      else Except.ok (st, true)) = Except.ok (st'', false)
    rw [if_pos hck, hstep]
    exact hrec

theorem begin_service_preserves (m : Model) (st st' : EngineState)
    (e : FlowEntity) (b : Bool)
    (h : SimulationEngine.process_begin_service_event m st e = .ok (st', b)) :
    st'.flow_entity_queue = st.flow_entity_queue ∧ st'.clock = st.clock := by
  unfold SimulationEngine.process_begin_service_event at h
  simp only [SimulationEngine.draw] at h
  split at h
  · cases h; exact ⟨rfl, rfl⟩
  · split at h
    · split at h
      · cases h
      · cases h; exact ⟨rfl, rfl⟩
    · split at h
      · cases h; exact ⟨rfl, rfl⟩
      · split at h
        · cases h
        · split at h
          · cases h
          · cases h
            rename_i x1 st2 hfold x0 astats happ
            have hpres := foldl_applyResource_preserves _ _ _ _ _ _ hfold
            exact ⟨hpres.1, hpres.2⟩

/-! Claim theorems. -/

/-- Claim C1 (refuted; the code contradicts it): the claim states that
`run(duration)` always terminates, the drain phase stopping as soon as a
begin attempt fails and the run ending early when the calendar empties.
In the code, `process_begin_service_event` never marks the entity
processed (its `departure_time` stays 0) and the drain loop ignores the
returned success flag, so `get_next_unprocessed` returns the same entity
forever and the drain loop never exits.  This theorem evaluates the code
at the failing input: on `oneActivityModel` (the shape of the
repository's own example) `run` with any positive duration is still
looping after any amount of fuel, for every sampler stream. -/
theorem sdesa_C1_run_never_terminates (rand : ℕ → ℤ) (fuel : ℕ) (d : ℤ)
    (hd : 0 < d) :
    SimulationEngine.run oneActivityModel rand d fuel = .ok none := by
  obtain ⟨st', hdrain, -⟩ := drain_loop_diverges d hd fuel
    (SimulationEngine.initEngine oneActivityModel rand)
    ⟨rfl, rfl, ⟨0, [], []⟩, rfl⟩
  simp only [SimulationEngine.run]
  rw [hdrain]
  rfl

/-- Witness for C1: the divergence at duration 100 with fuel 30 and the
constant sampler. -/
theorem sdesa_C1_witness :
    (0 : ℤ) < 100 ∧
      SimulationEngine.run oneActivityModel (fun _ => 1) 100 30 = .ok none :=
  ⟨by decide, sdesa_C1_run_never_terminates (fun _ => 1) 30 100 (by decide)⟩

/-- Claim C10 (confirmed): a begin-service call that returns normally
never changes the flow queue, hence never any entity's `departure_time`
(only `end_service` stamps it); an entity that entered with
`departure_time = 0` still has `is_processed` false and
`get_next_unprocessed` returns exactly what it returned before the
call — the entity stays eligible. -/
theorem sdesa_C10_begin_leaves_departure (m : Model) (st st' : EngineState)
    (e : FlowEntity) (b : Bool)
    (h : SimulationEngine.process_begin_service_event m st e = .ok (st', b))
    (hdep : e.departure_time = 0) :
    st'.flow_entity_queue = st.flow_entity_queue ∧
    e.is_processed = false ∧
    FlowEntityQueue.get_next_unprocessed st'.flow_entity_queue =
      FlowEntityQueue.get_next_unprocessed st.flow_entity_queue := by
  have hp := begin_service_preserves m st st' e b h
  refine ⟨hp.1, ?_, by rw [hp.1]⟩
  simp [FlowEntity.is_processed, hdep]

/-- Witness for C10: a successful begin on `oneActivityModel`'s initial
state leaves the queue, the processed flag and the selection unchanged. -/
theorem sdesa_C10_witness :
    ∃ st', SimulationEngine.process_begin_service_event oneActivityModel
        (SimulationEngine.initEngine oneActivityModel fun _ => 1)
        ⟨"e1", "A", 0, 0⟩ = .ok (st', true) ∧
      st'.flow_entity_queue =
        (SimulationEngine.initEngine oneActivityModel fun _ => 1).flow_entity_queue ∧
      FlowEntity.is_processed ⟨"e1", "A", 0, 0⟩ = false ∧
      FlowEntityQueue.get_next_unprocessed st'.flow_entity_queue =
        FlowEntityQueue.get_next_unprocessed
          (SimulationEngine.initEngine oneActivityModel fun _ => 1).flow_entity_queue := by
  obtain ⟨st', hstep, -⟩ := drainInv_step
    (SimulationEngine.initEngine oneActivityModel fun _ => 1)
    ⟨rfl, rfl, ⟨0, [], []⟩, rfl⟩
  have h := sdesa_C10_begin_leaves_departure oneActivityModel
    (SimulationEngine.initEngine oneActivityModel fun _ => 1) st'
    ⟨"e1", "A", 0, 0⟩ true hstep rfl
  exact ⟨st', hstep, h.1, h.2.1, h.2.2⟩

/-- Claim C3 (confirmed): resource acquisition is all-or-nothing on the
failure side.  When the activity's non-empty required list contains a
type for which `get_resource` finds no available resource, begin service
returns failure with the entire engine state unchanged: no resource's
`ready_time` or `available` flag changes (indeed `get_resource` is a pure
selection that never mutates the queue) and the entity stays
unprocessed. -/
theorem sdesa_C3_atomic_failure (m : Model) (st : EngineState)
    (e : FlowEntity) (A : Activity)
    (hA : m.get_activity e.activity_id = some A)
    (hreq : A.required_resources ≠ [])
    (hmiss : ∃ ty ∈ A.required_resources,
      ResourceEntityQueue.get_resource st.resource_entity_queue ty = none) :
    SimulationEngine.process_begin_service_event m st e = .ok (st, false) :=
  begin_service_fail m st e A hA hreq
    (acquireAll_none_of_missing st.resource_entity_queue
      A.required_resources hmiss)

/-- Witness for C3: on `starvedModel` (required type `ghost`, empty
resource pool) begin service fails and returns the initial state
untouched. -/
theorem sdesa_C3_witness :
    SimulationEngine.process_begin_service_event starvedModel
      (SimulationEngine.initEngine starvedModel fun _ => 1)
      ⟨"e1", "A", 0, 0⟩ =
      .ok (SimulationEngine.initEngine starvedModel fun _ => 1, false) :=
  sdesa_C3_atomic_failure starvedModel
    (SimulationEngine.initEngine starvedModel fun _ => 1) ⟨"e1", "A", 0, 0⟩
    ⟨"A", "a", ["ghost"], [], [], [], 0⟩ rfl (by decide)
    ⟨"ghost", by decide, rfl⟩

/-- Claim C8 (confirmed): the sampler stream is the engine's only
nondeterminism source; two runs of the same model for the same duration
with pointwise-equal (equally seeded deterministic) streams produce the
same event log, whatever fuel bound is given to the loops. -/
theorem sdesa_C8_determinism (m : Model) (d : ℤ) (fuel : ℕ)
    (r1 r2 : ℕ → ℤ) (h : ∀ n, r1 n = r2 n) :
    SimulationEngine.runEventLog m r1 d fuel =
      SimulationEngine.runEventLog m r2 d fuel := by
  have hr : r1 = r2 := funext h
  rw [hr]

/-- Witness for C8: two runs of `oneActivityModel` with the constant
sampler agree. -/
theorem sdesa_C8_witness :
    SimulationEngine.runEventLog oneActivityModel (fun _ => 1) 100 5 =
      SimulationEngine.runEventLog oneActivityModel (fun _ => 1) 100 5 :=
  sdesa_C8_determinism oneActivityModel 100 5 (fun _ => 1) (fun _ => 1)
    (fun _ => rfl)

/-- Counterexample to claim C2: scheduling a BEGIN_SERVICE event and then
an END_SERVICE event with the same timestamp leaves the BEGIN before the
END — `Event.__lt__` compares only `time`, so the calendar does not order
END_SERVICE before same-time BEGIN_SERVICE (nor does it consult
priority, which events do not even carry). -/
theorem sdesa_C2_counterexample :
    EventCalendar.schedule_event
      (EventCalendar.schedule_event [] ⟨5, Event.BEGIN_SERVICE, "e1", "a"⟩)
      ⟨5, Event.END_SERVICE, "e2", "a"⟩ =
      [⟨5, Event.BEGIN_SERVICE, "e1", "a"⟩,
        ⟨5, Event.END_SERVICE, "e2", "a"⟩] := by
  decide

/-- Claim C2 as amended: the event calendar orders events by timestamp
only; `schedule_event` keeps the list sorted by `time`, and for every
timestamp the subsequence of events bearing it equals the insertion
sequence restricted to that timestamp, so all same-timestamp ties —
END_SERVICE versus BEGIN_SERVICE as much as priorities — follow insertion
order. -/
theorem sdesa_C2_amended (cal : List Event) (ev : Event) :
    List.Sorted (keyLe Event.time) (EventCalendar.schedule_event cal ev) ∧
    ∀ t : ℤ,
      (EventCalendar.schedule_event cal ev).filter (fun x => x.time == t) =
        (cal ++ [ev]).filter fun x => x.time == t := by
  refine ⟨List.sorted_insertionSort _ _, fun t => ?_⟩
  exact filter_key_insertionSort Event.time (cal ++ [ev]) t

/-- Claim C7 (confirmed; its priority clause is vacuous because
insertion order already breaks every tie): `get_next_unprocessed` returns
none exactly when no entity has `departure_time = 0`, and otherwise
returns an unprocessed entity whose `arrival_time` is minimal among the
unprocessed ones and which is the first entity of the queue — insertion
order — among unprocessed entities with that minimal arrival time;
activity priority is never consulted. -/
theorem sdesa_C7_next_unprocessed (l : List FlowEntity) :
    (FlowEntityQueue.get_next_unprocessed l = none ↔
      ∀ e ∈ l, e.departure_time ≠ 0) ∧
    ∀ e, FlowEntityQueue.get_next_unprocessed l = some e →
      e ∈ l ∧ e.departure_time = 0 ∧
      (∀ x ∈ l, x.departure_time = 0 → e.arrival_time ≤ x.arrival_time) ∧
      (l.filter fun x => x.departure_time == 0 &&
        x.arrival_time == e.arrival_time).head? = some e := by
  constructor
  · unfold FlowEntityQueue.get_next_unprocessed
    rw [head?_insertionSort_none, List.filter_eq_nil_iff]
    simp
  · intro e he
    unfold FlowEntityQueue.get_next_unprocessed at he
    obtain ⟨hmem, hmin, hfirst⟩ :=
      head?_insertionSort_some FlowEntity.arrival_time _ e he
    have hm := List.mem_filter.mp hmem
    refine ⟨hm.1, by simpa using hm.2, ?_, ?_⟩
    · intro x hx hdep
      exact hmin x (List.mem_filter.mpr ⟨hx, by simp [hdep]⟩)
    · rw [List.filter_filter] at hfirst
      rw [show (fun (x : FlowEntity) =>
            x.departure_time == 0 && x.arrival_time == e.arrival_time) =
          (fun (x : FlowEntity) =>
            x.arrival_time == e.arrival_time && x.departure_time == 0) from
        funext fun x => Bool.and_comm _ _]
      exact hfirst

/-- Witness for C7: on a queue with one processed and two unprocessed
entities tied at the minimal arrival time, the earlier-inserted tie is
returned. -/
theorem sdesa_C7_witness :
    (⟨"b", "A", 3, 0⟩ : FlowEntity) ∈
      ([⟨"a", "A", 5, 1⟩, ⟨"b", "A", 3, 0⟩, ⟨"c", "A", 3, 0⟩] :
        List FlowEntity) ∧
    (⟨"b", "A", 3, 0⟩ : FlowEntity).departure_time = 0 ∧
    (∀ x ∈ ([⟨"a", "A", 5, 1⟩, ⟨"b", "A", 3, 0⟩, ⟨"c", "A", 3, 0⟩] :
        List FlowEntity), x.departure_time = 0 →
      (⟨"b", "A", 3, 0⟩ : FlowEntity).arrival_time ≤ x.arrival_time) ∧
    (([⟨"a", "A", 5, 1⟩, ⟨"b", "A", 3, 0⟩, ⟨"c", "A", 3, 0⟩] :
        List FlowEntity).filter fun x => x.departure_time == 0 &&
      x.arrival_time == (⟨"b", "A", 3, 0⟩ : FlowEntity).arrival_time).head? =
      some ⟨"b", "A", 3, 0⟩ :=
  (sdesa_C7_next_unprocessed
    [⟨"a", "A", 5, 1⟩, ⟨"b", "A", 3, 0⟩, ⟨"c", "A", 3, 0⟩]).2
    ⟨"b", "A", 3, 0⟩ (by decide)

/-- Counterexample to claim C4: on `holdModel` the acquired resource is
neither released nor disposable, and after the successful begin it is
returned completely unchanged — `available` is still `true` (the claim
says it is set to `false`) and `ready_time` still 3, so the resource is
not "permanently held" at all and can be acquired again at once. -/
theorem sdesa_C4_counterexample :
    ((SimulationEngine.process_begin_service_event holdModel
        (SimulationEngine.initEngine holdModel fun _ => 2)
        ⟨"e1", "A", 0, 0⟩).map fun p => (p.1.resource_entity_queue, p.2)) =
      .ok ([⟨"r1", "r", 3, true, false⟩], true) := by
  rfl

/-- Claim C4 as amended: for every resource acquired by a successful
begin service, if its type is released the queue entry gets
`ready_time = end_time` (staying available); otherwise if it is
disposable its `available` flag becomes `false`; otherwise — neither
released nor disposable — the resource is left entirely unchanged
(`available` stays `true`, `ready_time` keeps its old value), not marked
unavailable as the original claim stated. -/
theorem sdesa_C4_amended (m : Model) (st : EngineState) (e : FlowEntity)
    (A : Activity) (rs : List ResourceEntity) (ast : ActivityStats)
    (hA : m.get_activity e.activity_id = some A)
    (hreq : A.required_resources ≠ [])
    (hnd : A.required_resources.Nodup)
    (hq : (st.resource_entity_queue.map ResourceEntity.id).Nodup)
    (hacq : SimulationEngine.acquireAll st.resource_entity_queue
      A.required_resources = some rs)
    (hsome : ∀ r ∈ rs, (st.resource_statistics.lookup r.id).isSome = true)
    (hast : st.activity_statistics.lookup A.id = some ast) :
    ∃ st', SimulationEngine.process_begin_service_event m st e =
        .ok (st', true) ∧
      ∀ r ∈ rs,
        st'.resource_entity_queue.find? (fun x => x.id == r.id) = some (
          if A.released_resources.contains r.type then
            { r with ready_time :=
              (max e.arrival_time (SimulationEngine.maxReady rs) +
                st.rand st.rand_idx) }
          else if r.disposable then { r with available := false }
          else r) := by
  have hpw := acquireAll_pairwise_ne_id st.resource_entity_queue hq
    A.required_resources rs hnd hacq
  obtain ⟨st', hrun, hfq, hck, hcal, hasts, hne, hmap⟩ :=
    begin_service_success m st e A rs ast hA hreq hacq hsome hpw hast
  refine ⟨st', hrun, fun r hr => ?_⟩
  have hrq : st.resource_entity_queue.find? (fun x => x.id == r.id) =
      some r := by
    obtain ⟨ty, hty, hg⟩ := acquireAll_mem _ _ _ hacq r hr
    exact find?_of_mem_of_nodup_ids ResourceEntity.id _ hq r
      (get_resource_spec _ _ _ hg).1
  rw [hmap r hr, hrq]
  rfl

/-- Witness for C4: on `holdModel` (neither released nor disposable) the
amended claim applies and the queue entry is unchanged after a successful
begin. -/
theorem sdesa_C4_witness :
    ∃ st', SimulationEngine.process_begin_service_event holdModel
        (SimulationEngine.initEngine holdModel fun _ => 2)
        ⟨"e1", "A", 0, 0⟩ = .ok (st', true) ∧
      st'.resource_entity_queue.find? (fun x => x.id == "r1") =
        some ⟨"r1", "r", 3, true, false⟩ := by
  obtain ⟨st', hrun, hfind⟩ := sdesa_C4_amended holdModel
    (SimulationEngine.initEngine holdModel fun _ => 2) ⟨"e1", "A", 0, 0⟩
    ⟨"A", "a", ["r"], [], [], [], 0⟩ [⟨"r1", "r", 3, true, false⟩]
    ⟨0, [], []⟩ rfl (by decide) (by decide) (by decide) (by decide)
    (by decide) rfl
  refine ⟨st', hrun, ?_⟩
  have h := hfind ⟨"r1", "r", 3, true, false⟩ (by decide)
  simpa using h

/-- Claim C5 (confirmed): for a successful begin of an entity whose
activity requires resources, `begin_time` is the maximum of the entity's
`arrival_time` and the largest `ready_time` among the acquired resources,
`end_time = begin_time + sampled duration`, an END_SERVICE event at
`end_time` for the (entity, activity) pair is scheduled into the
calendar, and the statistics record `waiting_time = begin_time −
arrival_time` and `service_time = duration`. -/
theorem sdesa_C5_begin_time_and_records (m : Model) (st : EngineState)
    (e : FlowEntity) (A : Activity) (rs : List ResourceEntity)
    (ast : ActivityStats)
    (hA : m.get_activity e.activity_id = some A)
    (hreq : A.required_resources ≠ [])
    (hacq : SimulationEngine.acquireAll st.resource_entity_queue
      A.required_resources = some rs)
    (hsome : ∀ r ∈ rs, (st.resource_statistics.lookup r.id).isSome = true)
    (hpw : rs.Pairwise fun a b => a.id ≠ b.id)
    (hast : st.activity_statistics.lookup A.id = some ast) :
    ∃ st', SimulationEngine.process_begin_service_event m st e =
        .ok (st', true) ∧
      st'.event_calendar = EventCalendar.schedule_event st.event_calendar
        ⟨max e.arrival_time (SimulationEngine.maxReady rs) + st.rand st.rand_idx,
          Event.END_SERVICE, e.id, e.activity_id⟩ ∧
      (⟨max e.arrival_time (SimulationEngine.maxReady rs) + st.rand st.rand_idx,
          Event.END_SERVICE, e.id, e.activity_id⟩ : Event) ∈
        st'.event_calendar ∧
      st'.activity_statistics.lookup A.id = some
        { ast with
          waiting_times := ast.waiting_times ++
            [max e.arrival_time (SimulationEngine.maxReady rs) -
              e.arrival_time],
          service_times := ast.service_times ++ [st.rand st.rand_idx] } := by
  obtain ⟨st', hrun, hfq, hck, hcal, hasts, hne, hmap⟩ :=
    begin_service_success m st e A rs ast hA hreq hacq hsome hpw hast
  refine ⟨st', hrun, hcal, ?_, hasts⟩
  rw [hcal]
  unfold EventCalendar.schedule_event
  rw [List.mem_insertionSort]
  exact List.mem_append_right _ (List.mem_cons_self _ _)

/-- Witness for C5: on `holdModel` with the constant sampler 2,
`begin_time = max(0, 3) = 3`, `end_time = 5`; the END_SERVICE event at 5
is scheduled and waiting time 3 and service time 2 are recorded. -/
theorem sdesa_C5_witness :
    ∃ st', SimulationEngine.process_begin_service_event holdModel
        (SimulationEngine.initEngine holdModel fun _ => 2)
        ⟨"e1", "A", 0, 0⟩ = .ok (st', true) ∧
      st'.event_calendar = [⟨5, Event.END_SERVICE, "e1", "A"⟩] ∧
      st'.activity_statistics.lookup "A" = some ⟨0, [3], [2]⟩ := by
  obtain ⟨st', hrun, hcal, hmem, hast⟩ := sdesa_C5_begin_time_and_records
    holdModel (SimulationEngine.initEngine holdModel fun _ => 2)
    ⟨"e1", "A", 0, 0⟩ ⟨"A", "a", ["r"], [], [], [], 0⟩
    [⟨"r1", "r", 3, true, false⟩] ⟨0, [], []⟩ rfl (by decide) (by decide)
    (by decide) (by decide) rfl
  refine ⟨st', hrun, ?_, ?_⟩
  · rw [hcal]
    rfl
  · rw [hast]
    rfl

/-- Claim C6 (refuted by the code — a code bug): the claim, the
handler's own comments and spec §4.5.2 say `end_service` appends one
fresh resource per type in `A.generated_resources` and one new flow
entity per id in `A.successor_activities`.  The code cannot perform
either append: `engine.py` imports neither `ResourceEntity` nor
`FlowEntity`, so as soon as either list is non-empty the handler raises
`NameError` (lines 236/248) before anything is added to a queue.  This
theorem evaluates the code: after stamping the entity's `departure_time`
and incrementing the completion count, the handler errors whenever
either list is non-empty, and only with both lists empty does it return
success — carrying the stamping and the increment and nothing else. -/
theorem sdesa_C6_end_service_nameerror (m : Model) (st : EngineState)
    (e : FlowEntity) (A : Activity) (ast : ActivityStats)
    (hA : m.get_activity e.activity_id = some A)
    (hast : st.activity_statistics.lookup A.id = some ast) :
    ((A.generated_resources ≠ [] ∨ A.successor_activities ≠ []) →
      SimulationEngine.process_end_service_event m st e =
        .error .nameError) ∧
    (A.generated_resources = [] → A.successor_activities = [] →
      SimulationEngine.process_end_service_event m st e = .ok
        ({ st with
            flow_entity_queue := FlowEntityQueue.update_departure_time
              st.flow_entity_queue e.id st.clock,
            activity_statistics := (updateLookup A.id
              (fun a => { a with completion_count := a.completion_count + 1 })
              st.activity_statistics) }, true)) :=
  ⟨fun hne => end_service_nameerror m st e A ast hA hast hne,
   fun hgen hsucc => end_service_spec m st e A ast hA hast hgen hsucc⟩

/-- Witness for C6: finishing `G` of `genModel` (which generates a
`token` and has successor `S`) at clock 5 raises the modelled
`NameError`; `token_0` and `e1_S` are never appended. -/
theorem sdesa_C6_witness :
    SimulationEngine.process_end_service_event genModel
      { SimulationEngine.initEngine genModel (fun _ => 1) with clock := 5 }
      ⟨"e1", "G", 0, 0⟩ = .error .nameError :=
  (sdesa_C6_end_service_nameerror genModel
    { SimulationEngine.initEngine genModel (fun _ => 1) with clock := 5 }
    ⟨"e1", "G", 0, 0⟩ ⟨"G", "g", [], [], ["token"], ["S"], 0⟩ ⟨0, [], []⟩
    rfl rfl).1 (Or.inl (by decide))

/-- Claim C9 (the code fails earlier — a code bug): the claim supposes a
run in which begin service acquires a resource synthesized at runtime by
`end_service` and concludes that the busy-period append hits a missing
statistics key and raises `KeyError`.  Its ingredients are real and
proved here: statistics rows are created only for the model's initial
resources (first conjunct), and a begin whose acquisition includes a
resource without a row does raise `KeyError` at the busy-period append
instead of completing (third conjunct).  But the supposed run cannot
exist in the code as written: whenever `generated_resources` is
non-empty, `end_service` raises `NameError` (`ResourceEntity` is not
imported in `engine.py`, line 236) before any generated resource is
added to the queue (second conjunct), so begin service can never acquire
an `end_service`-synthesized resource and the claimed `KeyError` run is
unreachable. -/
theorem sdesa_C9_generated_resource_keyerror (m : Model) (rand : ℕ → ℤ)
    (st : EngineState) (e : FlowEntity) (A : Activity)
    (rs : List ResourceEntity) :
    ((SimulationEngine.initEngine m rand).resource_statistics =
      m.initial_resources.map fun r => (r.id, ⟨[], []⟩)) ∧
    (∀ ast, m.get_activity e.activity_id = some A →
      st.activity_statistics.lookup A.id = some ast →
      A.generated_resources ≠ [] →
      SimulationEngine.process_end_service_event m st e =
        .error .nameError) ∧
    (m.get_activity e.activity_id = some A →
      A.required_resources ≠ [] →
      SimulationEngine.acquireAll st.resource_entity_queue
        A.required_resources = some rs →
      (∃ r ∈ rs, st.resource_statistics.lookup r.id = none) →
      SimulationEngine.process_begin_service_event m st e = .error .keyError) := by
  refine ⟨rfl, fun ast hA hast hgen =>
    end_service_nameerror m st e A ast hA hast (Or.inl hgen), ?_⟩
  intro hA hreq hacq hmiss
  have hbool : A.required_resources.isEmpty = false := by
    simpa [List.isEmpty_iff] using hreq
  simp only [SimulationEngine.process_begin_service_event, hA, hbool,
    Bool.false_eq_true, if_false, hacq, SimulationEngine.draw]
  rw [foldl_applyResource_error A
    (max e.arrival_time (SimulationEngine.maxReady rs))
    (max e.arrival_time (SimulationEngine.maxReady rs) + st.rand st.rand_idx)
    rs { st with rand_idx := st.rand_idx + 1 } hmiss]

/-- Witness for C9: ending `G` of `genModel` (generated `token`
non-empty) raises the modelled `NameError` before any token exists; and
a `token_0` resource shaped the way the synthesis loop intended, placed
by hand in a queue whose statistics have no row for it, makes the begin
of `S` raise the modelled `KeyError`. -/
theorem sdesa_C9_witness :
    (SimulationEngine.process_end_service_event genModel
      { SimulationEngine.initEngine genModel (fun _ => 1) with clock := 5 }
      ⟨"e1", "G", 0, 0⟩ = .error .nameError) ∧
    SimulationEngine.process_begin_service_event genModel
      { SimulationEngine.initEngine genModel (fun _ => 1) with
        resource_entity_queue := [⟨"token_0", "token", 0, true, true⟩] }
      ⟨"x", "S", 0, 0⟩ = .error .keyError :=
  ⟨(sdesa_C9_generated_resource_keyerror genModel (fun _ => 1)
      { SimulationEngine.initEngine genModel (fun _ => 1) with clock := 5 }
      ⟨"e1", "G", 0, 0⟩ ⟨"G", "g", [], [], ["token"], ["S"], 0⟩ []).2.1
      ⟨0, [], []⟩ rfl rfl (by decide),
    (sdesa_C9_generated_resource_keyerror genModel (fun _ => 1)
      { SimulationEngine.initEngine genModel (fun _ => 1) with
        resource_entity_queue := [⟨"token_0", "token", 0, true, true⟩] }
      ⟨"x", "S", 0, 0⟩ ⟨"S", "s", ["token"], [], [], [], 0⟩
      [⟨"token_0", "token", 0, true, true⟩]).2.2 rfl (by decide) (by decide)
      ⟨⟨"token_0", "token", 0, true, true⟩, by decide, rfl⟩⟩

end Sdesa
